import Mathlib

/-!
Verification development for the "panda" desk-pet game (src/new.go).

The Go program is shallowly embedded: Go structs become Lean structures,
Go `int` becomes `Int`, Go `float64` arithmetic on the fishing reel (which
only adds and subtracts values that the relevant runs keep exactly
representable) is modelled with `ℚ`, and fallible operations (array
indexing that can panic in Go) return `Option`.  Randomness (`math/rand`)
and keyboard input are supplied as explicit per-frame oracle inputs.
-/

/-- Result of reading + JSON-decoding a persisted file.
`missing` models `os.ReadFile` returning an error (file absent/unreadable);
`corrupt` models a successful read whose `json.Unmarshal` fails, leaving the
target value unchanged; `ok v` models a successful decode of `v`. -/
inductive FileRead (α : Type) where
  | missing : FileRead α
  | corrupt : FileRead α
  | ok : α → FileRead α

/-- `color.RGBA` from Go's image/color package. -/
structure RGBA where
  r : Nat
  g : Nat
  b : Nat
  a : Nat
deriving DecidableEq

/-- `ColorProfile` struct from src/new.go. -/
structure ColorProfile where
  name : String
  bgHex : String
  accentHex : String
deriving DecidableEq

/-- `AppSettings` struct from src/new.go. -/
structure AppSettings where
  activeIndex : Int
  profiles : List ColorProfile
deriving DecidableEq

/-- `GameStats` struct from src/new.go. -/
structure GameStats where
  totalPlayTimeSec : Int
  todayPlayTimeSec : Int
  lastLoginDate : String
  fishCaught : Int
  pacmanWinsToday : Int
deriving DecidableEq

/-- `strings.TrimPrefix(s, "#")`: drop at most one leading `#`. -/
def stripHash : List Char → List Char
  | '#' :: t => t
  | s => s

/-- One hexadecimal digit, as accepted by `strconv.ParseUint` base 16. -/
def hexVal (c : Char) : Option Nat :=
  if '0' ≤ c ∧ c ≤ '9' then some (c.toNat - '0'.toNat)
  else if 'a' ≤ c ∧ c ≤ 'f' then some (c.toNat - 'a'.toNat + 10)
  else if 'A' ≤ c ∧ c ≤ 'F' then some (c.toNat - 'A'.toNat + 10)
  else none

/-- `v, _ := strconv.ParseUint(s, 16, 32)` with the error discarded, for the
6-character strings ParseHex feeds it.  Go returns the parsed value when every
character is a hex digit, and `(0, err)` on a syntax error; a range error is
impossible since a 6-digit hex value is below 2^24 < 2^32. -/
def parseUintHex (s : List Char) : Nat :=
  if s.all (fun c => (hexVal c).isSome) then
    s.foldl (fun a c => a * 16 + (hexVal c).getD 0) 0
  else 0

/-- `ParseHex` from src/new.go.  Strings are modelled as `List Char`. -/
def ParseHex (s : List Char) : RGBA :=
  let t := stripHash s
  if t.length ≠ 6 then ⟨0, 0, 0, 255⟩
  else
    let v := parseUintHex t
    ⟨(v >>> 16) % 256, (v >>> 8) % 256, v % 256, 255⟩

/-- The compiled-in default profiles written when settings.json is missing. -/
def defaultProfiles : List ColorProfile :=
  [⟨"Retro", "#2d2d2d", "#ff6b6b"⟩, ⟨"Light", "#fdf6e3", "#2aa198"⟩,
   ⟨"Matrix", "#000000", "#00ff00"⟩]

/-- The settings part of `LoadData`: on a read error the defaults are
installed; on a decode error `g.Settings` keeps its zero value
(`ActiveIndex 0`, nil `Profiles`); otherwise the decoded value is used. -/
def loadSettings : FileRead AppSettings → AppSettings
  | FileRead.missing => ⟨0, defaultProfiles⟩
  | FileRead.corrupt => ⟨0, []⟩
  | FileRead.ok v => v

/-- The stats-file part of `LoadData` before the daily reset: a read or
decode failure leaves `g.Stats` at its zero value. -/
def loadStatsRaw : FileRead GameStats → GameStats
  | FileRead.ok v => v
  | _ => ⟨0, 0, "", 0, 0⟩

/-- The daily-reset step of `LoadData`: when the stored date differs from
today, zero the daily counters and stamp today's date. -/
def dailyReset (st : GameStats) (today : String) : GameStats :=
  if st.lastLoginDate ≠ today then
    { st with todayPlayTimeSec := 0, pacmanWinsToday := 0, lastLoginDate := today }
  else st

/-- `ApplyProfile` from src/new.go.  `none` models the Go runtime panic
`index out of range` raised by `g.Settings.Profiles[idx]`. -/
def applyProfile (st : AppSettings) : Option (RGBA × RGBA) :=
  let idx := if st.activeIndex < 0 ∨ (st.profiles.length : Int) ≤ st.activeIndex
             then 0 else st.activeIndex
  match st.profiles.get? idx.toNat with
  | none => none
  | some p => some (ParseHex p.bgHex.toList, ParseHex p.accentHex.toList)

/-- Startup (`LoadData` followed by `ApplyProfile`) as far as claims about
persistence are concerned. -/
def startup (statsRead : FileRead GameStats) (settingsRead : FileRead AppSettings)
    (today : String) : Option (GameStats × AppSettings × RGBA × RGBA) :=
  let st := dailyReset (loadStatsRaw statsRead) today
  let se := loadSettings settingsRead
  match applyProfile se with
  | none => none
  | some (bg, ac) => some (st, se, bg, ac)

/-- C2: the claim says startup tolerates every possible file contents; but a
readable settings file whose contents do not decode (`json.Unmarshal` error is
discarded) leaves `Profiles` empty, and `ApplyProfile` then evaluates
`g.Settings.Profiles[0]` on an empty slice — a runtime panic, modelled as
`none`.  This evaluates the embedded startup at that failing input. -/
theorem C2_corrupt_settings_panics :
    startup FileRead.missing FileRead.corrupt "2025-01-02" = none := rfl

/-- C7: the daily-reset step of `LoadData` zeroes `TodayPlayTimeSec` and
`PacmanWinsToday` and stamps today's date exactly when the stored date
differs from today; otherwise both daily counters keep their stored values;
`TotalPlayTimeSec` and `FishCaught` are untouched either way. -/
theorem C7_daily_reset (st : GameStats) (today : String) :
    (st.lastLoginDate ≠ today →
      (dailyReset st today).todayPlayTimeSec = 0 ∧
      (dailyReset st today).pacmanWinsToday = 0 ∧
      (dailyReset st today).lastLoginDate = today) ∧
    (st.lastLoginDate = today →
      (dailyReset st today).todayPlayTimeSec = st.todayPlayTimeSec ∧
      (dailyReset st today).pacmanWinsToday = st.pacmanWinsToday) ∧
    (dailyReset st today).totalPlayTimeSec = st.totalPlayTimeSec ∧
    (dailyReset st today).fishCaught = st.fishCaught := by
  unfold dailyReset
  by_cases h : st.lastLoginDate = today
  · rw [if_neg (by simp [h])]
    exact ⟨fun hne => absurd h hne, fun _ => ⟨rfl, rfl⟩, rfl, rfl⟩
  · rw [if_pos h]
    exact ⟨fun _ => ⟨rfl, rfl, rfl⟩, fun he => absurd he h, rfl, rfl⟩

/-- Witness for C7 at a concrete stored-stats value and a different today. -/
theorem C7_daily_reset_witness :
    (dailyReset ⟨100, 50, "2025-01-01", 3, 2⟩ "2025-01-02").todayPlayTimeSec = 0 ∧
    (dailyReset ⟨100, 50, "2025-01-01", 3, 2⟩ "2025-01-02").pacmanWinsToday = 0 ∧
    (dailyReset ⟨100, 50, "2025-01-01", 3, 2⟩ "2025-01-02").lastLoginDate = "2025-01-02" :=
  (C7_daily_reset ⟨100, 50, "2025-01-01", 3, 2⟩ "2025-01-02").1 (by decide)

/-- C10: `ParseHex` is total, always returns alpha 255, and returns opaque
black whenever the input, after stripping at most one leading `#`, is not
exactly 6 hexadecimal digits. -/
theorem C10_parse_hex (s : List Char) :
    (ParseHex s).a = 255 ∧
    (¬ ((stripHash s).length = 6 ∧
        (stripHash s).all (fun c => (hexVal c).isSome) = true) →
      ParseHex s = ⟨0, 0, 0, 255⟩) := by
  constructor
  · unfold ParseHex
    by_cases h : (stripHash s).length ≠ 6
    · rw [if_pos h]
    · rw [if_neg h]
  · intro h
    unfold ParseHex
    by_cases hl : (stripHash s).length ≠ 6
    · rw [if_pos hl]
    · rw [if_neg hl]
      push_neg at hl
      have hall : ¬ (stripHash s).all (fun c => (hexVal c).isSome) = true := by
        intro hA; exact h ⟨hl, hA⟩
      have : parseUintHex (stripHash s) = 0 := by
        unfold parseUintHex; rw [if_neg hall]
      rw [this]
      rfl

/-- Witness for C10 on a concrete non-hex string. -/
theorem C10_parse_hex_witness :
    ParseHex ['x', 'y', 'z'] = ⟨0, 0, 0, 255⟩ :=
  (C10_parse_hex ['x', 'y', 'z']).2 (by decide)

/-! ## Fishing mini-game (src/new.go, `FishingGame` / `updateFishing`) -/

/-- `FishingGame` struct from src/new.go.  `float64` fields are modelled with
`ℚ`.  `fishCaught` mirrors `g.Stats.FishCaught`, the only stats field
`updateFishing` touches. -/
structure FishingGame where
  state : Int
  activeSpot : Int
  targetSpot : Int
  bobberX : ℚ
  bobberY : ℚ
  reelProgress : ℚ
  fishStrength : ℚ
  score : Int
  waitTimer : Int
  fishCaught : Int
deriving DecidableEq

/-- Per-frame oracle for `updateFishing`: the three `math/rand` draws the
frame may consume and the keys newly pressed this frame. -/
structure FInput where
  targetRoll : Int
  biteRoll : Int
  strengthRoll : ℚ
  keyA : Bool
  keyS : Bool
  keyD : Bool
  space : Bool
deriving DecidableEq

/-- The ranges `rand.Intn(3)`, `rand.Intn(100)` and `rand.Float64()`
guarantee for the three draws. -/
def ValidFInput (i : FInput) : Prop :=
  (0 ≤ i.targetRoll ∧ i.targetRoll < 3) ∧
  (0 ≤ i.biteRoll ∧ i.biteRoll < 100) ∧
  (0 ≤ i.strengthRoll ∧ i.strengthRoll < 1)

instance (i : FInput) : Decidable (ValidFInput i) := by
  unfold ValidFInput; infer_instance


/-- First two lines of `updateFishing`: increment `WaitTimer` and, past 120,
reset it and re-pick the hot spot (`rand.Intn(3) + 1`). -/
def tickSpot (s : FishingGame) (i : FInput) : FishingGame :=
  let s0 := { s with waitTimer := s.waitTimer + 1 }
  if 120 < s0.waitTimer
  then { s0 with waitTimer := 0, targetSpot := i.targetRoll + 1 }
  else s0

/-- The state-machine part of `updateFishing` (everything after the
wait-timer lines). -/
def fishCore (s1 : FishingGame) (i : FInput) : FishingGame :=
  if s1.state = 0 then
    let target : Int := if i.keyD then 3 else if i.keyS then 2 else if i.keyA then 1 else 0
    if 0 < target then
      { s1 with activeSpot := target, state := 1, bobberY := 180,
                bobberX := if target = 1 then 80 else if target = 2 then 160 else 240 }
    else s1
  else if s1.state = 1 then
    let s2 := if s1.activeSpot = s1.targetSpot ∧ i.biteRoll < 2 then
                { s1 with state := 2, reelProgress := 30,
                          fishStrength := 1/2 + i.strengthRoll }
              else s1
    if i.space then { s2 with state := 0 } else s2
  else if s1.state = 2 then
    let p1 := s1.reelProgress - s1.fishStrength
    let p2 := if i.space then p1 + 8 else p1
    let s3 := { s1 with reelProgress := p2 }
    let s4 := if 100 ≤ p2 then
                { s3 with score := s3.score + 1, fishCaught := s3.fishCaught + 1, state := 0 }
              else s3
    if s4.reelProgress ≤ 0 then { s4 with state := 0 } else s4
  else s1

/-- `updateFishing` from src/new.go, one frame. -/
def updateFishing (s : FishingGame) (i : FInput) : FishingGame :=
  fishCore (tickSpot s i) i

/-- The zero `FishingGame` the program starts with (Go zero value). -/
def fishInit : FishingGame := ⟨0, 0, 0, 0, 0, 0, 0, 0, 0, 0⟩

/-- The fishing states reachable from program start are exactly the folds of
`updateFishing` over input sequences. -/
def runFishing (l : List FInput) : FishingGame :=
  l.foldl updateFishing fishInit

/-- Invariant carried by every reachable fishing state: the reel progress is
always strictly between -3/2 and 215/2, and while the Reeling state is
active at a frame boundary it is strictly between 0 and 100 and the fish
strength is in [1/2, 3/2). -/
def FInv (s : FishingGame) : Prop :=
  (-(3/2) < s.reelProgress ∧ s.reelProgress < 215/2) ∧
  (s.state = 2 →
    (1/2 ≤ s.fishStrength ∧ s.fishStrength < 3/2) ∧
    0 < s.reelProgress ∧ s.reelProgress < 100)

lemma tickSpot_fields (s : FishingGame) (i : FInput) :
    (tickSpot s i).state = s.state ∧ (tickSpot s i).reelProgress = s.reelProgress ∧
    (tickSpot s i).fishStrength = s.fishStrength ∧ (tickSpot s i).score = s.score ∧
    (tickSpot s i).fishCaught = s.fishCaught := by
  unfold tickSpot
  dsimp only
  split_ifs <;> exact ⟨rfl, rfl, rfl, rfl, rfl⟩

lemma fInv_tickSpot (s : FishingGame) (i : FInput) (h : FInv s) : FInv (tickSpot s i) := by
  obtain ⟨h1, h2⟩ := h
  obtain ⟨hst, hrp, hfs, -, -⟩ := tickSpot_fields s i
  refine ⟨by rw [hrp]; exact h1, fun he => ?_⟩
  rw [hrp, hfs]
  exact h2 (by rw [← hst]; exact he)

lemma fInv_core (t : FishingGame) (i : FInput)
    (hs1 : 0 ≤ i.strengthRoll) (hs2 : i.strengthRoll < 1) (h : FInv t) :
    FInv (fishCore t i) := by
  obtain ⟨st, asp, tsp, bx, byy, rp, fs, sc, wt, fc⟩ := t
  obtain ⟨⟨hp1, hp2⟩, h2⟩ := h
  dsimp only at hp1 hp2 h2
  unfold fishCore
  dsimp only
  by_cases h0 : st = 0
  · rw [if_pos h0]
    split_ifs <;>
      exact ⟨⟨hp1, hp2⟩, fun he => absurd he (by try dsimp only; omega)⟩
  · rw [if_neg h0]
    by_cases h1 : st = 1
    · rw [if_pos h1]
      split_ifs
      · exact ⟨⟨by dsimp only; norm_num, by dsimp only; norm_num⟩,
               fun he => absurd he (by try dsimp only; omega)⟩
      · exact ⟨⟨hp1, hp2⟩, fun he => absurd he (by try dsimp only; omega)⟩
      · refine ⟨⟨by dsimp only; norm_num, by dsimp only; norm_num⟩, fun _ => ?_⟩
        refine ⟨⟨?_, ?_⟩, ?_, ?_⟩ <;> (dsimp only; linarith)
      · exact ⟨⟨hp1, hp2⟩, h2⟩
    · rw [if_neg h1]
      by_cases h2s : st = 2
      · rw [if_pos h2s]
        obtain ⟨⟨hf1, hf2⟩, hq1, hq2⟩ := h2 h2s
        split_ifs
        all_goals
          refine ⟨⟨by (try dsimp only at *); linarith,
                   by (try dsimp only at *); linarith⟩, fun he => ?_⟩
        all_goals try exact absurd he (by (try dsimp only); omega)
        all_goals (try dsimp only at *)
        all_goals exact ⟨⟨hf1, hf2⟩, by linarith, by linarith⟩
      · rw [if_neg h2s]
        exact ⟨⟨hp1, hp2⟩, h2⟩

lemma fInv_step (s : FishingGame) (i : FInput) (hv : ValidFInput i) (h : FInv s) :
    FInv (updateFishing s i) := by
  obtain ⟨-, -, hs1, hs2⟩ := hv
  exact fInv_core (tickSpot s i) i hs1 hs2 (fInv_tickSpot s i h)

lemma fInv_run_aux : ∀ (l : List FInput) (s : FishingGame),
    (∀ i ∈ l, ValidFInput i) → FInv s → FInv (l.foldl updateFishing s) := by
  intro l
  induction l with
  | nil => intro s _ h; exact h
  | cons a t ih =>
      intro s hv h
      rw [List.foldl_cons]
      exact ih (updateFishing s a) (fun j hj => hv j (List.mem_cons_of_mem a hj))
        (fInv_step s a (hv a (List.mem_cons_self a t)) h)

lemma fInv_run (l : List FInput) (hv : ∀ i ∈ l, ValidFInput i) : FInv (runFishing l) := by
  unfold runFishing
  exact fInv_run_aux l fishInit hv (by unfold FInv fishInit; norm_num)

/-- One frame with no keys and harmless rolls. -/
def idleF : FInput := ⟨0, 99, 0, false, false, false, false⟩

/-- Frame that casts at spot A. -/
def castAF : FInput := ⟨0, 99, 0, true, false, false, false⟩

/-- Frame whose bite roll fires (`rand.Intn(100) = 0 < 2`) with the weakest
possible fish (`rand.Float64() = 0`). -/
def biteF : FInput := ⟨0, 0, 0, false, false, false, false⟩

/-- Reeling frame with space newly pressed. -/
def reelF : FInput := ⟨0, 99, 0, false, false, false, true⟩

/-- A concrete real input sequence: wait for the hot spot to land on spot 1
(frame 121), cast at A, get a bite with fish strength 1/2, then press space
for 10 consecutive frames. -/
def cexInputs : List FInput :=
  List.replicate 121 idleF ++ [castAF, biteF] ++ List.replicate 10 reelF

set_option maxRecDepth 100000 in
lemma cexInputs_valid : ∀ i ∈ cexInputs, ValidFInput i := by decide

set_option maxRecDepth 100000 in
lemma idle_phase :
    List.foldl updateFishing fishInit (List.replicate 121 idleF) =
    ⟨0, 0, 1, 0, 0, 0, 0, 0, 0, 0⟩ := by rfl

lemma cast_step :
    updateFishing ⟨0, 0, 1, 0, 0, 0, 0, 0, 0, 0⟩ castAF =
    ⟨1, 1, 1, 80, 180, 0, 0, 0, 1, 0⟩ := by rfl

lemma bite_step :
    updateFishing ⟨1, 1, 1, 80, 180, 0, 0, 0, 1, 0⟩ biteF =
    ⟨2, 1, 1, 80, 180, 30, 1/2, 0, 2, 0⟩ := by
  norm_num [updateFishing, tickSpot, fishCore, biteF]

lemma reel_step (p : ℚ) (wt : ℤ) (hwt : ¬ (120 : ℤ) < wt + 1)
    (h1 : ¬ (100 : ℚ) ≤ p - 1/2 + 8) (h2 : ¬ (p - 1/2 + 8 : ℚ) ≤ 0) :
    updateFishing ⟨2, 1, 1, 80, 180, p, 1/2, 0, wt, 0⟩ reelF =
    ⟨2, 1, 1, 80, 180, p - 1/2 + 8, 1/2, 0, wt + 1, 0⟩ := by
  simp only [updateFishing, tickSpot, fishCore, reelF, if_neg hwt]
  norm_num [if_neg h1, if_neg h2]

lemma reel_catch (p : ℚ) (wt : ℤ) (hwt : ¬ (120 : ℤ) < wt + 1)
    (h1 : (100 : ℚ) ≤ p - 1/2 + 8) (h2 : ¬ (p - 1/2 + 8 : ℚ) ≤ 0) :
    updateFishing ⟨2, 1, 1, 80, 180, p, 1/2, 0, wt, 0⟩ reelF =
    ⟨0, 1, 1, 80, 180, p - 1/2 + 8, 1/2, 1, wt + 1, 1⟩ := by
  simp only [updateFishing, tickSpot, fishCore, reelF, if_neg hwt]
  norm_num [if_pos h1, if_neg h2]

lemma cexInputs_progress : (runFishing cexInputs).reelProgress = 105 := by
  have e1 : updateFishing ⟨2, 1, 1, 80, 180, 30, 1/2, 0, 2, 0⟩ reelF =
      ⟨2, 1, 1, 80, 180, 75/2, 1/2, 0, 3, 0⟩ := by
    rw [reel_step 30 2 (by norm_num) (by norm_num) (by norm_num)]; norm_num
  have e2 : updateFishing ⟨2, 1, 1, 80, 180, 75/2, 1/2, 0, 3, 0⟩ reelF =
      ⟨2, 1, 1, 80, 180, 45, 1/2, 0, 4, 0⟩ := by
    rw [reel_step (75/2) 3 (by norm_num) (by norm_num) (by norm_num)]; norm_num
  have e3 : updateFishing ⟨2, 1, 1, 80, 180, 45, 1/2, 0, 4, 0⟩ reelF =
      ⟨2, 1, 1, 80, 180, 105/2, 1/2, 0, 5, 0⟩ := by
    rw [reel_step 45 4 (by norm_num) (by norm_num) (by norm_num)]; norm_num
  have e4 : updateFishing ⟨2, 1, 1, 80, 180, 105/2, 1/2, 0, 5, 0⟩ reelF =
      ⟨2, 1, 1, 80, 180, 60, 1/2, 0, 6, 0⟩ := by
    rw [reel_step (105/2) 5 (by norm_num) (by norm_num) (by norm_num)]; norm_num
  have e5 : updateFishing ⟨2, 1, 1, 80, 180, 60, 1/2, 0, 6, 0⟩ reelF =
      ⟨2, 1, 1, 80, 180, 135/2, 1/2, 0, 7, 0⟩ := by
    rw [reel_step 60 6 (by norm_num) (by norm_num) (by norm_num)]; norm_num
  have e6 : updateFishing ⟨2, 1, 1, 80, 180, 135/2, 1/2, 0, 7, 0⟩ reelF =
      ⟨2, 1, 1, 80, 180, 75, 1/2, 0, 8, 0⟩ := by
    rw [reel_step (135/2) 7 (by norm_num) (by norm_num) (by norm_num)]; norm_num
  have e7 : updateFishing ⟨2, 1, 1, 80, 180, 75, 1/2, 0, 8, 0⟩ reelF =
      ⟨2, 1, 1, 80, 180, 165/2, 1/2, 0, 9, 0⟩ := by
    rw [reel_step 75 8 (by norm_num) (by norm_num) (by norm_num)]; norm_num
  have e8 : updateFishing ⟨2, 1, 1, 80, 180, 165/2, 1/2, 0, 9, 0⟩ reelF =
      ⟨2, 1, 1, 80, 180, 90, 1/2, 0, 10, 0⟩ := by
    rw [reel_step (165/2) 9 (by norm_num) (by norm_num) (by norm_num)]; norm_num
  have e9 : updateFishing ⟨2, 1, 1, 80, 180, 90, 1/2, 0, 10, 0⟩ reelF =
      ⟨2, 1, 1, 80, 180, 195/2, 1/2, 0, 11, 0⟩ := by
    rw [reel_step 90 10 (by norm_num) (by norm_num) (by norm_num)]; norm_num
  have e10 : updateFishing ⟨2, 1, 1, 80, 180, 195/2, 1/2, 0, 11, 0⟩ reelF =
      ⟨0, 1, 1, 80, 180, 105, 1/2, 1, 12, 1⟩ := by
    rw [reel_catch (195/2) 11 (by norm_num) (by norm_num) (by norm_num)]; norm_num
  unfold runFishing cexInputs
  rw [List.foldl_append, List.foldl_append, idle_phase,
      List.foldl_cons, cast_step, List.foldl_cons, bite_step, List.foldl_nil,
      show List.replicate 10 reelF =
        [reelF, reelF, reelF, reelF, reelF, reelF, reelF, reelF, reelF, reelF] from rfl,
      List.foldl_cons, e1, List.foldl_cons, e2, List.foldl_cons, e3,
      List.foldl_cons, e4, List.foldl_cons, e5, List.foldl_cons, e6,
      List.foldl_cons, e7, List.foldl_cons, e8, List.foldl_cons, e9,
      List.foldl_cons, e10, List.foldl_nil]

/-- C1 counterexample: the claim "ReelProgress is never below 0 and never
above 100 at any observable point" is false — after the concrete reachable
run `cexInputs` (all inputs within the generators' real ranges) the stored
`ReelProgress` is 105: the winning space press overshoots 100 and the code
never clamps. -/
theorem C1_reel_bounds_counterexample :
    (∀ i ∈ cexInputs, ValidFInput i) ∧
    ¬ (0 ≤ (runFishing cexInputs).reelProgress ∧
       (runFishing cexInputs).reelProgress ≤ 100) := by
  refine ⟨cexInputs_valid, ?_⟩
  rw [cexInputs_progress]
  norm_num

/-- C1 amended: the code never clamps, so [0,100] does not hold at every
observable point; what holds is that `ReelProgress` stays strictly inside
(0,100) at every frame boundary where the Reeling state is still active, and
across all reachable states it stays strictly between -3/2 and 215/2 (it can
leave [0,100] only on the frame that returns the state to Idle). -/
theorem C1_reel_bounds_amended (l : List FInput) (hv : ∀ i ∈ l, ValidFInput i) :
    (-(3/2) < (runFishing l).reelProgress ∧ (runFishing l).reelProgress < 215/2) ∧
    ((runFishing l).state = 2 →
      0 < (runFishing l).reelProgress ∧ (runFishing l).reelProgress < 100) := by
  obtain ⟨h1, h2⟩ := fInv_run l hv
  exact ⟨h1, fun he => (h2 he).2⟩

/-- Witness for the amended C1 at the empty input sequence. -/
theorem C1_reel_bounds_amended_witness :
    (-(3/2) < (runFishing []).reelProgress ∧ (runFishing []).reelProgress < 215/2) ∧
    ((runFishing []).state = 2 →
      0 < (runFishing []).reelProgress ∧ (runFishing []).reelProgress < 100) :=
  C1_reel_bounds_amended [] (by decide)

/-- C9: in the Reeling state (`State = 2`), one frame drains the progress by
`FishStrength`, adds a fixed 8 on a space press, and then: at 100 or more the
session score and the `FishCaught` stat each increase by one and the state
returns to Idle; at 0 or less the state returns to Idle with both unchanged. -/
lemma fishCore_reeling (t : FishingGame) (i : FInput) (hs : t.state = 2) :
    ((fishCore t i).reelProgress =
      (if i.space then t.reelProgress - t.fishStrength + 8
       else t.reelProgress - t.fishStrength)) ∧
    (100 ≤ (if i.space then t.reelProgress - t.fishStrength + 8
            else t.reelProgress - t.fishStrength) →
      (fishCore t i).state = 0 ∧
      (fishCore t i).score = t.score + 1 ∧
      (fishCore t i).fishCaught = t.fishCaught + 1) ∧
    ((if i.space then t.reelProgress - t.fishStrength + 8
      else t.reelProgress - t.fishStrength) ≤ 0 →
      (fishCore t i).state = 0 ∧
      (fishCore t i).score = t.score ∧
      (fishCore t i).fishCaught = t.fishCaught) := by
  obtain ⟨st, asp, tsp, bx, byy, rp, fs, sc, wt, fc⟩ := t
  dsimp only at hs ⊢
  subst hs
  unfold fishCore
  dsimp only
  rw [if_neg (by norm_num : ¬ (2 : Int) = 0), if_neg (by norm_num : ¬ (2 : Int) = 1),
      if_pos rfl]
  split_ifs <;> (try dsimp only at *) <;> refine ⟨rfl, fun hq => ?_, fun hq => ?_⟩ <;>
    first
      | exact ⟨rfl, rfl, rfl⟩
      | (exfalso; linarith)

theorem C9_reeling_frame (s : FishingGame) (i : FInput) (hs : s.state = 2) :
    ((updateFishing s i).reelProgress =
      (if i.space then s.reelProgress - s.fishStrength + 8
       else s.reelProgress - s.fishStrength)) ∧
    (100 ≤ (if i.space then s.reelProgress - s.fishStrength + 8
            else s.reelProgress - s.fishStrength) →
      (updateFishing s i).state = 0 ∧
      (updateFishing s i).score = s.score + 1 ∧
      (updateFishing s i).fishCaught = s.fishCaught + 1) ∧
    ((if i.space then s.reelProgress - s.fishStrength + 8
      else s.reelProgress - s.fishStrength) ≤ 0 →
      (updateFishing s i).state = 0 ∧
      (updateFishing s i).score = s.score ∧
      (updateFishing s i).fishCaught = s.fishCaught) := by
  obtain ⟨hst, hrp, hfs, hsc, hfc⟩ := tickSpot_fields s i
  have hcore := fishCore_reeling (tickSpot s i) i (by rw [hst]; exact hs)
  rw [hrp, hfs, hsc, hfc] at hcore
  unfold updateFishing
  exact hcore

/-- Witness for C9 on a concrete reeling state. -/
theorem C9_reeling_frame_witness :
    ((updateFishing ⟨2, 1, 1, 80, 180, 50, 1, 0, 3, 0⟩ idleF).reelProgress =
      (if idleF.space then (50 : ℚ) - 1 + 8 else 50 - 1)) ∧
    (100 ≤ (if idleF.space then (50 : ℚ) - 1 + 8 else 50 - 1) →
      (updateFishing ⟨2, 1, 1, 80, 180, 50, 1, 0, 3, 0⟩ idleF).state = 0 ∧
      (updateFishing ⟨2, 1, 1, 80, 180, 50, 1, 0, 3, 0⟩ idleF).score = 0 + 1 ∧
      (updateFishing ⟨2, 1, 1, 80, 180, 50, 1, 0, 3, 0⟩ idleF).fishCaught = 0 + 1) ∧
    ((if idleF.space then (50 : ℚ) - 1 + 8 else 50 - 1) ≤ 0 →
      (updateFishing ⟨2, 1, 1, 80, 180, 50, 1, 0, 3, 0⟩ idleF).state = 0 ∧
      (updateFishing ⟨2, 1, 1, 80, 180, 50, 1, 0, 3, 0⟩ idleF).score = 0 ∧
      (updateFishing ⟨2, 1, 1, 80, 180, 50, 1, 0, 3, 0⟩ idleF).fishCaught = 0) :=
  C9_reeling_frame ⟨2, 1, 1, 80, 180, 50, 1, 0, 3, 0⟩ idleF rfl

/-! ## Pac-Man-style chase mini-game (src/new.go, `PacmanGame`) -/

/-- The `[15][20]int` maze array, modelled as a total function on cell
coordinates; `getCell` below rechecks the Go array bounds on every access. -/
def PMap : Type := Nat → Nat → Nat

/-- Bounds-checked read of `Map[y][x]`; `none` models the Go runtime panic
`index out of range` for an index outside the 15×20 array. -/
def getCell (m : PMap) (y x : Int) : Option Nat :=
  if 0 ≤ y ∧ y < 15 ∧ 0 ≤ x ∧ x < 20 then some (m y.toNat x.toNat) else none

/-- Write `Map[y][x] = v` (only ever executed after an in-bounds read). -/
def setCell (m : PMap) (y x : Int) (v : Nat) : PMap :=
  fun y' x' => if y' = y.toNat ∧ x' = x.toNat ∧ 0 ≤ y ∧ 0 ≤ x then v else m y' x'

/-- The 11 hand-authored maze rows from `InitPacman` (1 wall, 2 dot, 0 empty). -/
def layout : List (List Nat) :=
  [[1,1,1,1,1,1,1,1,1,1,1,1,1,1,1,1,1,1,1,1],
   [1,2,2,2,2,2,1,2,2,2,2,2,2,1,2,2,2,2,2,1],
   [1,2,1,1,1,2,1,2,1,1,1,1,2,1,2,1,1,1,2,1],
   [1,2,1,2,2,2,2,2,2,2,2,2,2,2,2,2,2,1,2,1],
   [1,2,1,2,1,1,1,2,1,1,1,1,2,1,1,1,2,1,2,1],
   [1,2,2,2,2,2,2,2,2,0,0,2,2,2,2,2,2,2,2,1],
   [1,2,1,2,1,1,1,2,1,1,1,1,2,1,1,1,2,1,2,1],
   [1,2,1,2,2,2,2,2,2,2,2,2,2,2,2,2,2,1,2,1],
   [1,2,1,1,1,2,1,2,1,1,1,1,2,1,2,1,1,1,2,1],
   [1,2,2,2,2,2,1,2,2,2,2,2,2,1,2,2,2,2,2,1],
   [1,1,1,1,1,1,1,1,1,1,1,1,1,1,1,1,1,1,1,1]]

/-- `layout[y][x]` with Go's in-range semantics (only read for y<11, x<20). -/
def layoutCell (y x : Nat) : Nat := (layout.getD y []).getD x 0

/-- The copy loop of `InitPacman`: rows 0..10 are overwritten from `layout`,
rows 11..14 keep their previous contents. -/
def writeLayout (m : PMap) : PMap :=
  fun y x => if y < 11 ∧ x < 20 then layoutCell y x else m y x

/-- `PacmanGame` struct from src/new.go, together with the one stats field
`movePlayer` and `InitPacman` exchange with it (`winsToday` mirrors
`g.Stats.PacmanWinsToday`). -/
structure PacState where
  map : PMap
  playerX : Int
  playerY : Int
  ghostX : Int
  ghostY : Int
  ghostMoveTimer : Int
  ghostSpeedDelay : Int
  score : Int
  gameOver : Bool
  win : Bool
  winsToday : Int

/-- Keys newly pressed during one `updatePacman` frame. -/
structure PInput where
  left : Bool
  right : Bool
  up : Bool
  down : Bool
  space : Bool

/-- `InitPacman` from src/new.go: rewrite the maze rows, reset positions,
score and flags, and scale the pursuer cooldown from today's win count. -/
def initPacman (s : PacState) : PacState :=
  let d0 : Int := 30 - s.winsToday * 2
  let delay := if d0 < 5 then 5 else d0
  { s with map := writeLayout s.map, playerX := 1, playerY := 1,
           ghostX := 10, ghostY := 5, score := 0,
           gameOver := false, win := false, ghostSpeedDelay := delay }

/-- `movePlayer` from src/new.go.  `none` models an out-of-range `Map` access. -/
def movePlayer (s : PacState) (dx dy : Int) : Option PacState :=
  match getCell s.map (s.playerY + dy) (s.playerX + dx) with
  | none => none
  | some c =>
    if c = 1 then some s
    else if c = 2 then
      (if 80 ≤ s.score + 1 then
        some { s with
               playerX := s.playerX + dx, playerY := s.playerY + dy,
               map := setCell s.map (s.playerY + dy) (s.playerX + dx) 0,
               score := s.score + 1, win := true, winsToday := s.winsToday + 1 }
      else
        some { s with
               playerX := s.playerX + dx, playerY := s.playerY + dy,
               map := setCell s.map (s.playerY + dy) (s.playerX + dx) 0,
               score := s.score + 1 })
    else some { s with playerX := s.playerX + dx, playerY := s.playerY + dy }

/-- The pursuer's greedy step `(mx, my)`: x-axis when `|dx| > |dy|`
(`math.Abs` on exactly-representable small integers), else y-axis. -/
def ghostDir (s : PacState) : Int × Int :=
  if (s.playerY - s.ghostY).natAbs < (s.playerX - s.ghostX).natAbs then
    (if 0 < s.playerX - s.ghostX then (1, 0) else (-1, 0))
  else
    (if 0 < s.playerY - s.ghostY then (0, 1) else (0, -1))

/-- The pursuer part of `updatePacman`: increment the cooldown timer and,
once it exceeds `GhostSpeedDelay`, reset it and take the greedy step unless
the destination is a wall. -/
def ghostStep (s : PacState) : Option PacState :=
  if s.ghostSpeedDelay < s.ghostMoveTimer + 1 then
    match getCell s.map (s.ghostY + (ghostDir s).2) (s.ghostX + (ghostDir s).1) with
    | none => none
    | some c =>
      if c = 1 then some { s with ghostMoveTimer := 0 }
      else some { s with
                  ghostMoveTimer := 0,
                  ghostX := s.ghostX + (ghostDir s).1,
                  ghostY := s.ghostY + (ghostDir s).2 }
  else some { s with ghostMoveTimer := s.ghostMoveTimer + 1 }

/-- The four key-conditional `movePlayer` calls of `updatePacman`, in the
order the Go code makes them (left, right, up, down). -/
def playerPhase (s : PacState) (i : PInput) : Option PacState :=
  ((((if i.left then movePlayer s (-1) 0 else some s).bind
      (fun s1 => if i.right then movePlayer s1 1 0 else some s1)).bind
      (fun s2 => if i.up then movePlayer s2 0 (-1) else some s2)).bind
      (fun s3 => if i.down then movePlayer s3 0 1 else some s3))

/-- `updatePacman` from src/new.go, one frame. -/
def updatePacman (s : PacState) (i : PInput) : Option PacState :=
  if s.gameOver || s.win then
    some (if i.space then initPacman s else s)
  else
    ((playerPhase s i).bind ghostStep).map
      (fun s2 => if s2.playerX = s2.ghostX ∧ s2.playerY = s2.ghostY
                 then { s2 with gameOver := true } else s2)

/-- The zero-valued `PacmanGame` (Go zero value) with today's stored win
count, as it stands when `NewGame` runs `InitPacman` the first time. -/
def zeroPac (wins : Int) : PacState :=
  { map := fun _ _ => 0, playerX := 0, playerY := 0, ghostX := 0, ghostY := 0,
    ghostMoveTimer := 0, ghostSpeedDelay := 0, score := 0,
    gameOver := false, win := false, winsToday := wins }

/-- The Pac-Man state right after `NewGame` (LoadData gave `wins` same-day
wins, then `InitPacman` ran). -/
def pacInit (wins : Int) : PacState := initPacman (zeroPac wins)

/-- All reachable Pac-Man states: fold the frame update over any input
sequence from the initial state; `none` anywhere models a Go panic. -/
def runPacman (wins : Int) (l : List PInput) : Option PacState :=
  l.foldlM updatePacman (pacInit wins)

/-- Invariant of every reachable Pac-Man state: the maze border rows/columns
(rows 0 and 10, columns 0 and 19 of the first 11 rows) are walls, both
characters sit inside the inner box [1,18]×[1,9], the pursuer is not on a
wall, and the win flag tracks `Score ≥ 80`. -/
structure PacInv (s : PacState) : Prop where
  btop : ∀ x : Nat, x < 20 → s.map 0 x = 1
  bbot : ∀ x : Nat, x < 20 → s.map 10 x = 1
  bleft : ∀ y : Nat, y < 11 → s.map y 0 = 1
  bright : ∀ y : Nat, y < 11 → s.map y 19 = 1
  pxlo : 1 ≤ s.playerX
  pxhi : s.playerX ≤ 18
  pylo : 1 ≤ s.playerY
  pyhi : s.playerY ≤ 9
  gxlo : 1 ≤ s.ghostX
  gxhi : s.ghostX ≤ 18
  gylo : 1 ≤ s.ghostY
  gyhi : s.ghostY ≤ 9
  gwall : s.map s.ghostY.toNat s.ghostX.toNat ≠ 1
  winIff : s.win = true ↔ 80 ≤ s.score

lemma getCell_in (m : PMap) {y x : Int} (hy0 : 0 ≤ y) (hy : y < 15)
    (hx0 : 0 ≤ x) (hx : x < 20) :
    getCell m y x = some (m y.toNat x.toNat) := by
  unfold getCell
  rw [if_pos ⟨hy0, hy, hx0, hx⟩]

lemma obind_some {α β : Type} (a : α) (f : α → Option β) :
    (Option.some a).bind f = f a := rfl

lemma movePlayer_inv (s : PacState) (dx dy : Int) (h : PacInv s)
    (hdx1 : -1 ≤ dx) (hdx2 : dx ≤ 1) (hdy1 : -1 ≤ dy) (hdy2 : dy ≤ 1) :
    ∃ s', movePlayer s dx dy = some s' ∧ PacInv s' := by
  have hpxlo := h.pxlo
  have hpxhi := h.pxhi
  have hpylo := h.pylo
  have hpyhi := h.pyhi
  have hny0 : 0 ≤ s.playerY + dy := by omega
  have hny : s.playerY + dy < 15 := by omega
  have hnx0 : 0 ≤ s.playerX + dx := by omega
  have hnx : s.playerX + dx < 20 := by omega
  unfold movePlayer
  rw [getCell_in s.map hny0 hny hnx0 hnx]
  dsimp only
  by_cases h1 : s.map (s.playerY + dy).toNat (s.playerX + dx).toNat = 1
  · rw [if_pos h1]
    exact ⟨s, rfl, h⟩
  · have hy1 : 1 ≤ s.playerY + dy := by
      by_contra hcon
      have he : s.playerY + dy = 0 := by omega
      apply h1
      rw [he]
      simpa using h.btop (s.playerX + dx).toNat (by omega)
    have hy9 : s.playerY + dy ≤ 9 := by
      by_contra hcon
      have he : s.playerY + dy = 10 := by omega
      apply h1
      rw [he]
      simpa using h.bbot (s.playerX + dx).toNat (by omega)
    have hx1 : 1 ≤ s.playerX + dx := by
      by_contra hcon
      have he : s.playerX + dx = 0 := by omega
      apply h1
      rw [he]
      simpa using h.bleft (s.playerY + dy).toNat (by omega)
    have hx18 : s.playerX + dx ≤ 18 := by
      by_contra hcon
      have he : s.playerX + dx = 19 := by omega
      apply h1
      rw [he]
      simpa using h.bright (s.playerY + dy).toNat (by omega)
    rw [if_neg h1]
    by_cases h2 : s.map (s.playerY + dy).toNat (s.playerX + dx).toNat = 2
    · rw [if_pos h2]
      by_cases h80 : 80 ≤ s.score + 1
      · rw [if_pos h80]
        refine ⟨_, rfl, ?_⟩
        refine ⟨?_, ?_, ?_, ?_, ?_, ?_, ?_, ?_, h.gxlo, h.gxhi, h.gylo, h.gyhi, ?_, ?_⟩
        · intro x hx
          show setCell s.map (s.playerY + dy) (s.playerX + dx) 0 0 x = 1
          unfold setCell
          rw [if_neg (by omega)]
          exact h.btop x hx
        · intro x hx
          show setCell s.map (s.playerY + dy) (s.playerX + dx) 0 10 x = 1
          unfold setCell
          rw [if_neg (by omega)]
          exact h.bbot x hx
        · intro y hy
          show setCell s.map (s.playerY + dy) (s.playerX + dx) 0 y 0 = 1
          unfold setCell
          rw [if_neg (by omega)]
          exact h.bleft y hy
        · intro y hy
          show setCell s.map (s.playerY + dy) (s.playerX + dx) 0 y 19 = 1
          unfold setCell
          rw [if_neg (by omega)]
          exact h.bright y hy
        · exact hx1
        · exact hx18
        · exact hy1
        · exact hy9
        · show setCell s.map (s.playerY + dy) (s.playerX + dx) 0
              s.ghostY.toNat s.ghostX.toNat ≠ 1
          unfold setCell
          split_ifs
          · omega
          · exact h.gwall
        · exact ⟨fun _ => h80, fun _ => rfl⟩
      · rw [if_neg h80]
        refine ⟨_, rfl, ?_⟩
        refine ⟨?_, ?_, ?_, ?_, ?_, ?_, ?_, ?_, h.gxlo, h.gxhi, h.gylo, h.gyhi, ?_, ?_⟩
        · intro x hx
          show setCell s.map (s.playerY + dy) (s.playerX + dx) 0 0 x = 1
          unfold setCell
          rw [if_neg (by omega)]
          exact h.btop x hx
        · intro x hx
          show setCell s.map (s.playerY + dy) (s.playerX + dx) 0 10 x = 1
          unfold setCell
          rw [if_neg (by omega)]
          exact h.bbot x hx
        · intro y hy
          show setCell s.map (s.playerY + dy) (s.playerX + dx) 0 y 0 = 1
          unfold setCell
          rw [if_neg (by omega)]
          exact h.bleft y hy
        · intro y hy
          show setCell s.map (s.playerY + dy) (s.playerX + dx) 0 y 19 = 1
          unfold setCell
          rw [if_neg (by omega)]
          exact h.bright y hy
        · exact hx1
        · exact hx18
        · exact hy1
        · exact hy9
        · show setCell s.map (s.playerY + dy) (s.playerX + dx) 0
              s.ghostY.toNat s.ghostX.toNat ≠ 1
          unfold setCell
          split_ifs
          · omega
          · exact h.gwall
        · exact ⟨fun hw => absurd (h.winIff.mp hw) (by omega),
                 fun hs => absurd hs h80⟩
    · rw [if_neg h2]
      refine ⟨_, rfl, ?_⟩
      exact ⟨h.btop, h.bbot, h.bleft, h.bright, hx1, hx18, hy1, hy9,
             h.gxlo, h.gxhi, h.gylo, h.gyhi, h.gwall, h.winIff⟩

lemma ghostDir_unit (s : PacState) :
    ghostDir s = (1, 0) ∨ ghostDir s = (-1, 0) ∨
    ghostDir s = (0, 1) ∨ ghostDir s = (0, -1) := by
  unfold ghostDir
  split_ifs <;> simp

lemma ghostStep_inv (s : PacState) (h : PacInv s) :
    ∃ s', ghostStep s = some s' ∧ PacInv s' := by
  unfold ghostStep
  by_cases ht : s.ghostSpeedDelay < s.ghostMoveTimer + 1
  · rw [if_pos ht]
    have hgxlo := h.gxlo
    have hgxhi := h.gxhi
    have hgylo := h.gylo
    have hgyhi := h.gyhi
    have hd : (-1 ≤ (ghostDir s).1 ∧ (ghostDir s).1 ≤ 1) ∧
              (-1 ≤ (ghostDir s).2 ∧ (ghostDir s).2 ≤ 1) := by
      rcases ghostDir_unit s with h' | h' | h' | h' <;> rw [h'] <;> norm_num
    obtain ⟨⟨hm1, hm2⟩, hm3, hm4⟩ := hd
    have hny0 : 0 ≤ s.ghostY + (ghostDir s).2 := by omega
    have hny : s.ghostY + (ghostDir s).2 < 15 := by omega
    have hnx0 : 0 ≤ s.ghostX + (ghostDir s).1 := by omega
    have hnx : s.ghostX + (ghostDir s).1 < 20 := by omega
    rw [getCell_in s.map hny0 hny hnx0 hnx]
    dsimp only
    by_cases h1 : s.map (s.ghostY + (ghostDir s).2).toNat
        (s.ghostX + (ghostDir s).1).toNat = 1
    · rw [if_pos h1]
      exact ⟨_, rfl, ⟨h.btop, h.bbot, h.bleft, h.bright, h.pxlo, h.pxhi,
             h.pylo, h.pyhi, h.gxlo, h.gxhi, h.gylo, h.gyhi, h.gwall, h.winIff⟩⟩
    · have hy1 : 1 ≤ s.ghostY + (ghostDir s).2 := by
        by_contra hcon
        have he : s.ghostY + (ghostDir s).2 = 0 := by omega
        apply h1
        rw [he]
        simpa using h.btop (s.ghostX + (ghostDir s).1).toNat (by omega)
      have hy9 : s.ghostY + (ghostDir s).2 ≤ 9 := by
        by_contra hcon
        have he : s.ghostY + (ghostDir s).2 = 10 := by omega
        apply h1
        rw [he]
        simpa using h.bbot (s.ghostX + (ghostDir s).1).toNat (by omega)
      have hx1 : 1 ≤ s.ghostX + (ghostDir s).1 := by
        by_contra hcon
        have he : s.ghostX + (ghostDir s).1 = 0 := by omega
        apply h1
        rw [he]
        simpa using h.bleft (s.ghostY + (ghostDir s).2).toNat (by omega)
      have hx18 : s.ghostX + (ghostDir s).1 ≤ 18 := by
        by_contra hcon
        have he : s.ghostX + (ghostDir s).1 = 19 := by omega
        apply h1
        rw [he]
        simpa using h.bright (s.ghostY + (ghostDir s).2).toNat (by omega)
      rw [if_neg h1]
      exact ⟨_, rfl, ⟨h.btop, h.bbot, h.bleft, h.bright, h.pxlo, h.pxhi,
             h.pylo, h.pyhi, hx1, hx18, hy1, hy9, h1, h.winIff⟩⟩
  · rw [if_neg ht]
    exact ⟨_, rfl, ⟨h.btop, h.bbot, h.bleft, h.bright, h.pxlo, h.pxhi,
           h.pylo, h.pyhi, h.gxlo, h.gxhi, h.gylo, h.gyhi, h.gwall, h.winIff⟩⟩

lemma condMove_inv (s : PacState) (b : Bool) (dx dy : Int) (h : PacInv s)
    (hdx1 : -1 ≤ dx) (hdx2 : dx ≤ 1) (hdy1 : -1 ≤ dy) (hdy2 : dy ≤ 1) :
    ∃ s', (if b then movePlayer s dx dy else some s) = some s' ∧ PacInv s' := by
  cases b
  · exact ⟨s, rfl, h⟩
  · simpa using movePlayer_inv s dx dy h hdx1 hdx2 hdy1 hdy2

lemma playerPhase_inv (s : PacState) (i : PInput) (h : PacInv s) :
    ∃ sp, playerPhase s i = some sp ∧ PacInv sp := by
  unfold playerPhase
  obtain ⟨s1, e1, h1⟩ :=
    condMove_inv s i.left (-1) 0 h (by norm_num) (by norm_num) (by norm_num) (by norm_num)
  obtain ⟨s2, e2, h2⟩ :=
    condMove_inv s1 i.right 1 0 h1 (by norm_num) (by norm_num) (by norm_num) (by norm_num)
  obtain ⟨s3, e3, h3⟩ :=
    condMove_inv s2 i.up 0 (-1) h2 (by norm_num) (by norm_num) (by norm_num) (by norm_num)
  obtain ⟨s4, e4, h4⟩ :=
    condMove_inv s3 i.down 0 1 h3 (by norm_num) (by norm_num) (by norm_num) (by norm_num)
  refine ⟨s4, ?_, h4⟩
  rw [e1, obind_some, e2, obind_some, e3, obind_some, e4]

lemma initPacman_inv (s : PacState) : PacInv (initPacman s) := by
  have hrow0 : ∀ x : Nat, x < 20 → layoutCell 0 x = 1 := by decide
  have hrow10 : ∀ x : Nat, x < 20 → layoutCell 10 x = 1 := by decide
  have hcol0 : ∀ y : Nat, y < 11 → layoutCell y 0 = 1 := by decide
  have hcol19 : ∀ y : Nat, y < 11 → layoutCell y 19 = 1 := by decide
  refine ⟨?_, ?_, ?_, ?_, by norm_num [initPacman], by norm_num [initPacman],
          by norm_num [initPacman], by norm_num [initPacman], by norm_num [initPacman],
          by norm_num [initPacman], by norm_num [initPacman], by norm_num [initPacman],
          ?_, by simp [initPacman]⟩
  · intro x hx
    show writeLayout s.map 0 x = 1
    unfold writeLayout
    rw [if_pos ⟨by omega, hx⟩]
    exact hrow0 x hx
  · intro x hx
    show writeLayout s.map 10 x = 1
    unfold writeLayout
    rw [if_pos ⟨by omega, hx⟩]
    exact hrow10 x hx
  · intro y hy
    show writeLayout s.map y 0 = 1
    unfold writeLayout
    rw [if_pos ⟨hy, by omega⟩]
    exact hcol0 y hy
  · intro y hy
    show writeLayout s.map y 19 = 1
    unfold writeLayout
    rw [if_pos ⟨hy, by omega⟩]
    exact hcol19 y hy
  · show writeLayout s.map (5 : Int).toNat (10 : Int).toNat ≠ 1
    unfold writeLayout
    rw [if_pos (by omega)]
    decide

lemma updatePacman_inv (s : PacState) (i : PInput) (h : PacInv s) :
    ∃ s', updatePacman s i = some s' ∧ PacInv s' := by
  unfold updatePacman
  by_cases hov : (s.gameOver || s.win) = true
  · rw [if_pos hov]
    cases hsp : i.space
    · exact ⟨s, by rw [if_neg (by simp)], h⟩
    · exact ⟨initPacman s, by rw [if_pos rfl], initPacman_inv s⟩
  · rw [if_neg hov]
    obtain ⟨sp, ep, hp⟩ := playerPhase_inv s i h
    obtain ⟨sg, eg, hg⟩ := ghostStep_inv sp hp
    rw [ep, obind_some, eg, Option.map_some']
    refine ⟨_, rfl, ?_⟩
    by_cases hc : sg.playerX = sg.ghostX ∧ sg.playerY = sg.ghostY
    · rw [if_pos hc]
      exact ⟨hg.btop, hg.bbot, hg.bleft, hg.bright, hg.pxlo, hg.pxhi,
             hg.pylo, hg.pyhi, hg.gxlo, hg.gxhi, hg.gylo, hg.gyhi,
             hg.gwall, hg.winIff⟩
    · rw [if_neg hc]
      exact hg

lemma runPacman_inv_aux : ∀ (l : List PInput) (s0 : PacState), PacInv s0 →
    ∃ s, List.foldlM updatePacman s0 l = some s ∧ PacInv s := by
  intro l
  induction l with
  | nil => intro s0 h; exact ⟨s0, rfl, h⟩
  | cons a t ih =>
      intro s0 h
      obtain ⟨s1, e1, h1⟩ := updatePacman_inv s0 a h
      obtain ⟨s, e, hs⟩ := ih s1 h1
      refine ⟨s, ?_, hs⟩
      rw [List.foldlM_cons, e1]
      exact e

lemma runPacman_inv (wins : Int) (l : List PInput) :
    ∃ s, runPacman wins l = some s ∧ PacInv s :=
  runPacman_inv_aux l (pacInit wins) (initPacman_inv (zeroPac wins))

/-- C6: `InitPacman` sets the pursuer cooldown to `max(30 - 2*PacmanWinsToday, 5)`
for every stored same-day win count. -/
theorem C6_ghost_speed_delay (s : PacState) :
    (initPacman s).ghostSpeedDelay = max (30 - 2 * s.winsToday) 5 := by
  unfold initPacman
  dsimp only
  split_ifs with h <;> omega

/-- C4: after any reachable run, the pursuer's cell is a successful in-bounds
read and is not a wall (cell code 1). -/
theorem C4_ghost_not_on_wall (wins : Int) (l : List PInput) (s : PacState)
    (hrun : runPacman wins l = some s) :
    ∃ c, getCell s.map s.ghostY s.ghostX = some c ∧ c ≠ 1 := by
  obtain ⟨s0, e0, h0⟩ := runPacman_inv wins l
  rw [hrun] at e0
  obtain rfl := Option.some.inj e0
  refine ⟨s.map s.ghostY.toNat s.ghostX.toNat, ?_, h0.gwall⟩
  exact getCell_in s.map (by have := h0.gylo; omega) (by have := h0.gyhi; omega)
      (by have := h0.gxlo; omega) (by have := h0.gxhi; omega)

/-- Witness for C4 at the initial state. -/
theorem C4_ghost_not_on_wall_witness :
    ∃ c, getCell (pacInit 0).map (pacInit 0).ghostY (pacInit 0).ghostX = some c ∧ c ≠ 1 :=
  C4_ghost_not_on_wall 0 [] (pacInit 0) rfl

/-- C8: no reachable frame sequence ever makes an out-of-range `Map` access
(the checked semantics never returns `none`), and the player's and pursuer's
coordinates always stay inside the grid (indeed inside [1,18]×[1,9], so every
neighbor cell the code examines is inside the 15×20 array). -/
theorem C8_map_access_in_bounds :
    (∀ (wins : Int) (l : List PInput), (runPacman wins l).isSome = true) ∧
    (∀ (wins : Int) (l : List PInput) (s : PacState), runPacman wins l = some s →
      (1 ≤ s.playerX ∧ s.playerX ≤ 18 ∧ 1 ≤ s.playerY ∧ s.playerY ≤ 9) ∧
      (1 ≤ s.ghostX ∧ s.ghostX ≤ 18 ∧ 1 ≤ s.ghostY ∧ s.ghostY ≤ 9)) := by
  constructor
  · intro wins l
    obtain ⟨s, e, -⟩ := runPacman_inv wins l
    rw [e]
    rfl
  · intro wins l s hrun
    obtain ⟨s0, e0, h0⟩ := runPacman_inv wins l
    rw [hrun] at e0
    obtain rfl := Option.some.inj e0
    exact ⟨⟨h0.pxlo, h0.pxhi, h0.pylo, h0.pyhi⟩, h0.gxlo, h0.gxhi, h0.gylo, h0.gyhi⟩

/-- Witness for C8 at the initial state. -/
theorem C8_map_access_in_bounds_witness :
    (runPacman 0 []).isSome = true ∧
    ((1 ≤ (pacInit 0).playerX ∧ (pacInit 0).playerX ≤ 18 ∧
      1 ≤ (pacInit 0).playerY ∧ (pacInit 0).playerY ≤ 9) ∧
     (1 ≤ (pacInit 0).ghostX ∧ (pacInit 0).ghostX ≤ 18 ∧
      1 ≤ (pacInit 0).ghostY ∧ (pacInit 0).ghostY ≤ 9)) :=
  ⟨C8_map_access_in_bounds.1 0 [], C8_map_access_in_bounds.2 0 [] (pacInit 0) rfl⟩

/-- C3: in every reachable state the Win flag holds exactly when the score is
at least 80; and any single `movePlayer` from a state with score below 80
sets Win (and bumps `PacmanWinsToday` by one) precisely when the move brings
the score to 80, leaving Win untouched when the score stays below 80. -/
theorem C3_win_at_threshold :
    (∀ (wins : Int) (l : List PInput) (s : PacState), runPacman wins l = some s →
      (s.win = true ↔ 80 ≤ s.score)) ∧
    (∀ (s : PacState) (dx dy : Int) (s' : PacState), s.score < 80 →
      movePlayer s dx dy = some s' →
      ((80 ≤ s'.score → s'.win = true ∧ s'.winsToday = s.winsToday + 1) ∧
       (s'.score < 80 → s'.win = s.win))) := by
  constructor
  · intro wins l s hrun
    obtain ⟨s0, e0, h0⟩ := runPacman_inv wins l
    rw [hrun] at e0
    obtain rfl := Option.some.inj e0
    exact h0.winIff
  · intro s dx dy s' hsc hmv
    unfold movePlayer at hmv
    split at hmv
    · exact Option.noConfusion hmv
    · split_ifs at hmv with h1 h2 h80
      · obtain rfl := Option.some.inj hmv
        exact ⟨fun hge => absurd hge (by omega), fun _ => rfl⟩
      · obtain rfl := Option.some.inj hmv
        refine ⟨fun _ => ⟨rfl, rfl⟩, fun hlt => ?_⟩
        dsimp only at hlt
        exact absurd h80 (by omega)
      · obtain rfl := Option.some.inj hmv
        refine ⟨fun hge => ?_, fun _ => rfl⟩
        dsimp only at hge
        exact absurd hge h80
      · obtain rfl := Option.some.inj hmv
        refine ⟨fun hge => ?_, fun _ => rfl⟩
        dsimp only at hge
        exact absurd hge (by omega)

set_option maxRecDepth 10000 in
/-- Witness for C3: the initial state satisfies the reachable-state part, and
a blocked move (up into the border wall) instantiates the step part. -/
theorem C3_win_at_threshold_witness :
    ((pacInit 0).win = true ↔ 80 ≤ (pacInit 0).score) ∧
    ((80 ≤ (pacInit 0).score →
       (pacInit 0).win = true ∧ (pacInit 0).winsToday = (pacInit 0).winsToday + 1) ∧
     ((pacInit 0).score < 80 → (pacInit 0).win = (pacInit 0).win)) :=
  ⟨C3_win_at_threshold.1 0 [] (pacInit 0) rfl,
   C3_win_at_threshold.2 (pacInit 0) 0 (-1) (pacInit 0) (by decide) (by rfl)⟩

lemma ghostStep_wait (sp : PacState)
    (hng : ¬ sp.ghostSpeedDelay < sp.ghostMoveTimer + 1) :
    ghostStep sp = some { sp with ghostMoveTimer := sp.ghostMoveTimer + 1 } := by
  unfold ghostStep
  rw [if_neg hng]

lemma ghostDir_desc (sp : PacState) :
    ((sp.playerY - sp.ghostY).natAbs < (sp.playerX - sp.ghostX).natAbs ∧
      ghostDir sp = ((if 0 < sp.playerX - sp.ghostX then 1 else -1), 0)) ∨
    ((sp.playerX - sp.ghostX).natAbs ≤ (sp.playerY - sp.ghostY).natAbs ∧
      ghostDir sp = (0, (if 0 < sp.playerY - sp.ghostY then 1 else -1))) := by
  unfold ghostDir
  by_cases hlt : (sp.playerY - sp.ghostY).natAbs < (sp.playerX - sp.ghostX).natAbs
  · left
    refine ⟨hlt, ?_⟩
    rw [if_pos hlt]
    split_ifs <;> rfl
  · right
    refine ⟨by omega, ?_⟩
    rw [if_neg hlt]
    split_ifs <;> rfl

lemma ghostStep_go_desc (sp : PacState) (h : PacInv sp)
    (hgo : sp.ghostSpeedDelay < sp.ghostMoveTimer + 1) (sg : PacState)
    (he : ghostStep sp = some sg) :
    (sp.map (sp.ghostY + (ghostDir sp).2).toNat (sp.ghostX + (ghostDir sp).1).toNat = 1 →
      sg.ghostX = sp.ghostX ∧ sg.ghostY = sp.ghostY) ∧
    (¬ sp.map (sp.ghostY + (ghostDir sp).2).toNat (sp.ghostX + (ghostDir sp).1).toNat = 1 →
      sg.ghostX = sp.ghostX + (ghostDir sp).1 ∧ sg.ghostY = sp.ghostY + (ghostDir sp).2) := by
  have hgxlo := h.gxlo
  have hgxhi := h.gxhi
  have hgylo := h.gylo
  have hgyhi := h.gyhi
  have hd : (-1 ≤ (ghostDir sp).1 ∧ (ghostDir sp).1 ≤ 1) ∧
            (-1 ≤ (ghostDir sp).2 ∧ (ghostDir sp).2 ≤ 1) := by
    rcases ghostDir_unit sp with h' | h' | h' | h' <;> rw [h'] <;> norm_num
  obtain ⟨⟨hm1, hm2⟩, hm3, hm4⟩ := hd
  unfold ghostStep at he
  rw [if_pos hgo,
      getCell_in sp.map (by omega) (by omega) (by omega) (by omega)] at he
  dsimp only at he
  by_cases h1 : sp.map (sp.ghostY + (ghostDir sp).2).toNat
      (sp.ghostX + (ghostDir sp).1).toNat = 1
  · rw [if_pos h1] at he
    obtain rfl := Option.some.inj he
    exact ⟨fun _ => ⟨rfl, rfl⟩, fun hne => absurd h1 hne⟩
  · rw [if_neg h1] at he
    obtain rfl := Option.some.inj he
    exact ⟨fun heq => absurd heq h1, fun _ => ⟨rfl, rfl⟩⟩

/-- C5: on a frame that actually plays (not game-over/win), after the
player's key moves the pursuer behaves as follows: while the incremented
cooldown timer has not exceeded `GhostSpeedDelay` it does not move at all
(only the timer advances); once it exceeds it, the pursuer attempts exactly
one one-cell step toward the player along the axis with the strictly larger
absolute offset (the vertical axis when the offsets tie, per the code), and
if that destination is a wall it stays in place for the turn — the other
axis is never tried. -/
theorem C5_ghost_greedy :
    ∀ (wins : Int) (l : List PInput) (s : PacState), runPacman wins l = some s →
    s.gameOver = false → s.win = false → ∀ i : PInput,
    ∃ sp sg, playerPhase s i = some sp ∧ ghostStep sp = some sg ∧
      (¬ sp.ghostSpeedDelay < sp.ghostMoveTimer + 1 →
        sg = { sp with ghostMoveTimer := sp.ghostMoveTimer + 1 }) ∧
      (sp.ghostSpeedDelay < sp.ghostMoveTimer + 1 →
        ∃ mx my : Int,
          (((sp.playerY - sp.ghostY).natAbs < (sp.playerX - sp.ghostX).natAbs ∧
             mx = (if 0 < sp.playerX - sp.ghostX then 1 else -1) ∧ my = 0) ∨
           ((sp.playerX - sp.ghostX).natAbs ≤ (sp.playerY - sp.ghostY).natAbs ∧
             mx = 0 ∧ my = (if 0 < sp.playerY - sp.ghostY then 1 else -1))) ∧
          (sp.map (sp.ghostY + my).toNat (sp.ghostX + mx).toNat = 1 →
            sg.ghostX = sp.ghostX ∧ sg.ghostY = sp.ghostY) ∧
          (¬ sp.map (sp.ghostY + my).toNat (sp.ghostX + mx).toNat = 1 →
            sg.ghostX = sp.ghostX + mx ∧ sg.ghostY = sp.ghostY + my)) := by
  intro wins l s hrun hgov hwin i
  obtain ⟨s0, e0, h0⟩ := runPacman_inv wins l
  rw [hrun] at e0
  obtain rfl := Option.some.inj e0
  obtain ⟨sp, ep, hp⟩ := playerPhase_inv s i h0
  obtain ⟨sg, eg, hgI⟩ := ghostStep_inv sp hp
  refine ⟨sp, sg, ep, eg, ?_, ?_⟩
  · intro hng
    rw [ghostStep_wait sp hng] at eg
    exact (Option.some.inj eg).symm
  · intro hgo2
    obtain ⟨hblock, hfree⟩ := ghostStep_go_desc sp hp hgo2 sg eg
    rcases ghostDir_desc sp with ⟨hax, hdir⟩ | ⟨hax, hdir⟩
    · exact ⟨(ghostDir sp).1, (ghostDir sp).2,
             Or.inl ⟨hax, by rw [hdir], by rw [hdir]⟩, hblock, hfree⟩
    · exact ⟨(ghostDir sp).1, (ghostDir sp).2,
             Or.inr ⟨hax, by rw [hdir], by rw [hdir]⟩, hblock, hfree⟩

/-- Witness for C5 at the initial state with no keys pressed. -/
theorem C5_ghost_greedy_witness :
    ∃ sp sg, playerPhase (pacInit 0) ⟨false, false, false, false, false⟩ = some sp ∧
      ghostStep sp = some sg ∧
      (¬ sp.ghostSpeedDelay < sp.ghostMoveTimer + 1 →
        sg = { sp with ghostMoveTimer := sp.ghostMoveTimer + 1 }) ∧
      (sp.ghostSpeedDelay < sp.ghostMoveTimer + 1 →
        ∃ mx my : Int,
          (((sp.playerY - sp.ghostY).natAbs < (sp.playerX - sp.ghostX).natAbs ∧
             mx = (if 0 < sp.playerX - sp.ghostX then 1 else -1) ∧ my = 0) ∨
           ((sp.playerX - sp.ghostX).natAbs ≤ (sp.playerY - sp.ghostY).natAbs ∧
             mx = 0 ∧ my = (if 0 < sp.playerY - sp.ghostY then 1 else -1))) ∧
          (sp.map (sp.ghostY + my).toNat (sp.ghostX + mx).toNat = 1 →
            sg.ghostX = sp.ghostX ∧ sg.ghostY = sp.ghostY) ∧
          (¬ sp.map (sp.ghostY + my).toNat (sp.ghostX + mx).toNat = 1 →
            sg.ghostX = sp.ghostX + mx ∧ sg.ghostY = sp.ghostY + my)) :=
  C5_ghost_greedy 0 [] (pacInit 0) rfl rfl rfl ⟨false, false, false, false, false⟩
